import Mathlib

/-!
Verification of the renrs-lang lexer (src/renrs_lang/lexer.rs together with
the error model of src/compiler/renrs_lang/err.rs, which is the revision of
err.rs that declares the InvalidString kind used by lexer.rs).

The Rust lexer is embedded shallowly: the peekable character iterator becomes
a `List Char`, mutation becomes explicit state passing, `Result` becomes
`Except`, and the Unicode character classification of the Rust standard
library (`char::is_alphabetic`, `char::is_alphanumeric`, `char::is_numeric`),
which is external to the repository, is abstracted as a `CharClassifier`
parameter so that every theorem holds for the actual Unicode tables.
-/

namespace RenrsLang

/-- Character constant: the double quote character. -/
def dquote : Char := Char.ofNat 34

/-- Character constant: the single quote character. -/
def squote : Char := Char.ofNat 39

/-- Character constant: the backtick character. -/
def bquote : Char := Char.ofNat 96

/-- Character constant: the left curly brace character. -/
def lcurly : Char := Char.ofNat 123

/-- Character constant: the right curly brace character. -/
def rcurly : Char := Char.ofNat 125

/-- Abstraction of the character classification the lexer delegates to:
Rust's `char::is_alphabetic`, `char::is_alphanumeric` and `char::is_numeric`.
The lexer source calls these on arbitrary Unicode codepoints; their Unicode
tables live in the Rust standard library, outside this repository, so the
embedding is parameterized over them. -/
structure CharClassifier where
  isAlphabetic : Char → Bool
  isAlphanumeric : Char → Bool
  isNumeric : Char → Bool

/-- The ASCII fragment of Rust's character classification: on ASCII
codepoints, Rust's `char::is_alphabetic` holds exactly on the letters,
`char::is_numeric` exactly on the decimal digits, and `char::is_alphanumeric`
on their union. In particular, as in Rust, neither the underscore (which is
connector punctuation) nor the dot is alphabetic or numeric. Used to
evaluate concrete examples whose input is pure ASCII. -/
def asciiCC : CharClassifier where
  isAlphabetic := fun c => c.isAlpha
  isAlphanumeric := fun c => c.isAlpha || c.isDigit
  isNumeric := fun c => c.isDigit

/-- Modelled from the spec: the input contract is "a single complete sequence
of Unicode codepoints", classified by the Rust standard library's Unicode
tables, which are not part of this repository's sources. This classifier
extends the ASCII fragment with sample non-ASCII codepoints and their actual
Unicode classification: GREEK SMALL LETTER ALPHA and LATIN SMALL LETTER E
WITH ACUTE are alphabetic, ARABIC-INDIC DIGIT THREE is numeric, and all three
are alphanumeric-or-numeric accordingly. -/
def uniCC : CharClassifier where
  isAlphabetic := fun c => c.isAlpha || c == 'α' || c == 'é'
  isAlphanumeric := fun c =>
    c.isAlpha || c.isDigit || c == 'α' || c == 'é' || c == '٣'
  isNumeric := fun c => c.isDigit || c == '٣'

/-- Decidable equality for `Except`, so that concrete lexer outputs can be
evaluated by `decide`. -/
instance {ε α : Type} [DecidableEq ε] [DecidableEq α] : DecidableEq (Except ε α) :=
  fun x y =>
    match x, y with
    | Except.ok a, Except.ok b =>
      if h : a = b then isTrue (h ▸ rfl)
      else isFalse (fun he => h (Except.ok.inj he))
    | Except.error e, Except.error f =>
      if h : e = f then isTrue (h ▸ rfl)
      else isFalse (fun he => h (Except.error.inj he))
    | Except.ok _, Except.error _ => isFalse (fun he => Except.noConfusion he)
    | Except.error _, Except.ok _ => isFalse (fun he => Except.noConfusion he)

/-- Kinds of errors encountered when compiling (err.rs, `CompilationErrKind`). -/
inductive CompilationErrKind where
  | InvalidNumber
  | InvalidString
  | Unreachable
deriving DecidableEq, Repr

/-- Error thrown during compilation (err.rs, `CompilationErr`). -/
structure CompilationErr where
  kind : CompilationErrKind
  message : String
deriving DecidableEq, Repr

/-- Source position (lexer.rs, `struct Pos`). -/
structure Pos where
  file : Option String
  line : Nat
  column : Nat
  raw : Option Nat
deriving DecidableEq, Repr

/-- The `INTERNAL_ERR_MSG` constant of lexer.rs. -/
def INTERNAL_ERR_MSG : String :=
  "Reached unreachable. This is an error within renrs-lang itself.\nReport this bug on Github: https://github.com/FaCsaba/renrs-lang/issues"

/-- Rust's `Option::ok_or`. -/
def okOr {α β : Type} (o : Option α) (e : β) : Except β α :=
  match o with
  | some a => Except.ok a
  | none => Except.error e

/-- The message built by the error branch of `Pos::advance` (the `{:?}` debug
format of `self.file.as_ref().or(Some(&String::from("")))`, which is always a
`Some` of a string). -/
def advanceErrMsg (p : Pos) : String :=
  "We expected a character at: Some(\"" ++ p.file.getD "" ++ "\"):" ++
    toString p.line ++ ":" ++ toString p.column ++ " \n" ++ INTERNAL_ERR_MSG

/-- `Pos::advance` of lexer.rs: bump line on a newline and column otherwise,
then set the raw offset to 0 if it was unset and increment it otherwise.
The `ok_or` in the `Some` arm mirrors the source's
`self.raw.ok_or(CompilationErr { kind: Unreachable, .. })?`. -/
def Pos.advance (p : Pos) (newLine : Bool) : Except CompilationErr Pos :=
  let p1 := if newLine then { p with line := p.line + 1 }
            else { p with column := p.column + 1 }
  match p1.raw with
  | none => Except.ok { p1 with raw := some 0 }
  | some _ =>
    match okOr p1.raw ⟨CompilationErrKind.Unreachable, advanceErrMsg p1⟩ with
    | Except.ok r => Except.ok { p1 with raw := some (r + 1) }
    | Except.error e => Except.error e

/-- The `.unwrap()` applied to `Pos::advance` in `Lexer::read_char`. The
panicking branch is modelled as returning the old position; it is proved
unreachable (`Pos.advance` always returns `ok`) in the C9 theorem. -/
def Pos.advanceUnwrap (p : Pos) (newLine : Bool) : Pos :=
  match p.advance newLine with
  | Except.ok q => q
  | Except.error _ => p

/-- The `Token` enum of lexer.rs. -/
inductive Token where
  | Assign (c : Char)
  | Plus (c : Char)
  | Minus (c : Char)
  | LCurly (c : Char)
  | RCurly (c : Char)
  | LParen (c : Char)
  | RParen (c : Char)
  | Dot
  | Num (cs : List Char)
  | Ident (cs : List Char)
  | String (cs : List Char)
  | EndOfLine
  | Invalid (c : Char)
deriving DecidableEq, Repr

/-- The `Lexer` struct of lexer.rs: the peekable iterator over the remaining
input characters becomes a `List Char` (peek is `head?`, next pops). -/
structure Lexer where
  input : List Char
  position : Pos
  ch : Option Char
deriving DecidableEq, Repr

/-- `Lexer::new`: note the initial position written in the source is
`line: 0, column: 1, raw: None` (not the `Default` of `Pos`). -/
def Lexer.new (input : List Char) : Lexer :=
  ⟨input, ⟨none, 0, 1, none⟩, none⟩

/-- `Lexer::read_char`: advance the position keyed on whether the previously
read character was a newline, then pull the next input character. -/
def Lexer.read_char (l : Lexer) : Lexer × Option Char :=
  let p := l.position.advanceUnwrap (l.ch == some '\n')
  match l.input with
  | [] => (⟨[], p, none⟩, none)
  | c :: rest => (⟨rest, p, some c⟩, some c)

/-- `Lexer::is_whitespace`: the current character is a space or a tab. -/
def Lexer.is_whitespace (ch : Option Char) : Bool :=
  match ch with
  | some c => c == ' ' || c == '\t'
  | none => false

/-- `Lexer::is_alphabetic`: alphabetic per the standard library, or an
underscore. -/
def Lexer.is_alphabetic (CC : CharClassifier) (ch : Option Char) : Bool :=
  match ch with
  | some c => CC.isAlphabetic c || c == '_'
  | none => false

/-- `Lexer::is_alphanumeric`: alphanumeric per the standard library, or an
underscore. -/
def Lexer.is_alphanumeric (CC : CharClassifier) (ch : Option Char) : Bool :=
  match ch with
  | some c => CC.isAlphanumeric c || c == '_'
  | none => false

/-- `Lexer::is_num_char`: numeric per the standard library, or a dot. -/
def Lexer.is_num_char (CC : CharClassifier) (ch : Option Char) : Bool :=
  match ch with
  | some c => CC.isNumeric c || c == '.'
  | none => false

/-- The common shape of the three sub-scanner loops of lexer.rs: while the
peeked character satisfies `p`, consume it through `read_char` (inlined:
advance the position keyed on the previous character, make it current) and
append it to the accumulator. Exits when input is exhausted or the peeked
character fails `p`, leaving that character unconsumed. -/
def Lexer.scanWhile (p : Char → Bool) :
    List Char → Pos → Option Char → List Char → Lexer × List Char
  | [], pos, ch, acc => (⟨[], pos, ch⟩, acc)
  | c :: rest, pos, ch, acc =>
    if p c then
      Lexer.scanWhile p rest (pos.advanceUnwrap (ch == some '\n')) (some c)
        (acc ++ [c])
    else (⟨c :: rest, pos, ch⟩, acc)

/-- `Lexer::read_ident`: start from the current character (`ok_or` an
Unreachable error if there is none) and extend while the peeked character is
alphanumeric or an underscore. -/
def Lexer.read_ident (CC : CharClassifier) (l : Lexer) :
    Lexer × Except CompilationErr (List Char) :=
  match l.ch with
  | none => (l, Except.error ⟨CompilationErrKind.Unreachable, INTERNAL_ERR_MSG⟩)
  | some c =>
    let r := Lexer.scanWhile (fun d => Lexer.is_alphanumeric CC (some d))
      l.input l.position l.ch [c]
    (r.1, Except.ok r.2)

/-- The message of the InvalidNumber error of `Lexer::read_num`:
`format!("Invalid number at: {}:{}:{}", file.unwrap_or(""), line, column)`. -/
def invalidNumberMsg (p : Pos) : String :=
  "Invalid number at: " ++ p.file.getD "" ++ ":" ++ toString p.line ++ ":" ++
    toString p.column

/-- `Lexer::read_num`: start from the current character (`ok_or` an
Unreachable error if there is none), extend while the peeked character is
numeric or a dot, then fail with InvalidNumber if the accumulated literal
contains more than one dot. -/
def Lexer.read_num (CC : CharClassifier) (l : Lexer) :
    Lexer × Except CompilationErr (List Char) :=
  match l.ch with
  | none => (l, Except.error ⟨CompilationErrKind.Unreachable, INTERNAL_ERR_MSG⟩)
  | some c =>
    let r := Lexer.scanWhile (fun d => Lexer.is_num_char CC (some d))
      l.input l.position l.ch [c]
    if r.2.count '.' > 1 then
      (r.1, Except.error ⟨CompilationErrKind.InvalidNumber,
        invalidNumberMsg r.1.position⟩)
    else (r.1, Except.ok r.2)

/-- The continuation condition of the `Lexer::read_string` loop: the peeked
character is none of double quote, single quote, newline, semicolon. Note
that the backtick is absent from the source's condition. -/
def strContinue (c : Char) : Bool :=
  !(c == dquote || c == squote || c == '\n' || c == ';')

/-- `Lexer::read_string`: consume while `strContinue` holds for the peeked
character (the loop pushes `read_char().unwrap()`, whose panic is proved
unreachable in the C9 theorem), then consume the closing character only when
it is a double quote. Always returns `ok`. -/
def Lexer.read_string (l : Lexer) : Lexer × Except CompilationErr (List Char) :=
  let r := Lexer.scanWhile strContinue l.input l.position l.ch []
  if r.1.input.head? == some dquote then ((r.1.read_char).1, Except.ok r.2)
  else (r.1, Except.ok r.2)

/-- The loop of `Lexer::take_whitespace`: while the current character is a
space or a tab, `read_char`. -/
def Lexer.wsGo : List Char → Pos → Option Char → Lexer
  | [], pos, ch =>
    if Lexer.is_whitespace ch then ⟨[], pos.advanceUnwrap (ch == some '\n'), none⟩
    else ⟨[], pos, ch⟩
  | c :: rest, pos, ch =>
    if Lexer.is_whitespace ch then
      Lexer.wsGo rest (pos.advanceUnwrap (ch == some '\n')) (some c)
    else ⟨c :: rest, pos, ch⟩

/-- `Lexer::take_whitespace`. -/
def Lexer.take_whitespace (l : Lexer) : Lexer :=
  Lexer.wsGo l.input l.position l.ch

/-- The message of the InvalidString error branch of `Lexer::next`:
`format!("Invalid String found at: {}:{},{}", file.unwrap_or(""), line, column)`. -/
def invalidStringMsg (p : Pos) : String :=
  "Invalid String found at: " ++ p.file.getD "" ++ ":" ++ toString p.line ++
    "," ++ toString p.column

/-- `<Lexer as Iterator>::next`: read a character, skip horizontal
whitespace, capture the position, then dispatch on the current character in
the source's arm order. The `Ident` and `Num` arms mirror the source's
`self.read_ident().ok()?` / `self.read_num().ok()?`: a sub-scanner error is
discarded and the pull returns `none` (Rust `None`). -/
def Lexer.next (CC : CharClassifier) (l : Lexer) :
    Lexer × Option (Except CompilationErr (Token × Pos)) :=
  let la := (l.read_char).1
  let lb := la.take_whitespace
  let pos := lb.position
  match lb.ch with
  | none => (lb, none)
  | some ch =>
    if ch == '=' then (lb, some (Except.ok (Token.Assign ch, pos)))
    else if ch == '+' then (lb, some (Except.ok (Token.Plus ch, pos)))
    else if ch == '-' then (lb, some (Except.ok (Token.Minus ch, pos)))
    else if ch == lcurly then (lb, some (Except.ok (Token.LCurly ch, pos)))
    else if ch == rcurly then (lb, some (Except.ok (Token.RCurly ch, pos)))
    else if ch == '(' then (lb, some (Except.ok (Token.LParen ch, pos)))
    else if ch == ')' then (lb, some (Except.ok (Token.RParen ch, pos)))
    else if ch == dquote || ch == squote || ch == bquote then
      match lb.read_string with
      | (l3, Except.ok s) => (l3, some (Except.ok (Token.String s, pos)))
      | (l3, Except.error _) =>
        (l3, some (Except.error ⟨CompilationErrKind.InvalidString,
          invalidStringMsg l3.position⟩))
    else if ch == '\n' || ch == ';' then
      (lb, some (Except.ok (Token.EndOfLine, pos)))
    else if Lexer.is_alphabetic CC (some ch) then
      match Lexer.read_ident CC lb with
      | (l3, Except.ok s) => (l3, some (Except.ok (Token.Ident s, pos)))
      | (l3, Except.error _) => (l3, none)
    else if ch == '.' && Lexer.is_alphabetic CC lb.input.head? then
      (lb, some (Except.ok (Token.Dot, pos)))
    else if Lexer.is_num_char CC (some ch) then
      match Lexer.read_num CC lb with
      | (l3, Except.ok s) => (l3, some (Except.ok (Token.Num s, pos)))
      | (l3, Except.error _) => (l3, none)
    else (lb, some (Except.ok (Token.Invalid ch, pos)))

/-- The lexer state after `n` calls of `next`. -/
def Lexer.iterate (CC : CharClassifier) (l : Lexer) : Nat → Lexer
  | 0 => l
  | n + 1 => (Lexer.next CC (Lexer.iterate CC l n)).1

/-- The item produced by the `(n+1)`-th call of `next` (0-indexed pulls). -/
def Lexer.pull (CC : CharClassifier) (l : Lexer) (n : Nat) :
    Option (Except CompilationErr (Token × Pos)) :=
  (Lexer.next CC (Lexer.iterate CC l n)).2

/-- The characters matched by a literal arm of the dispatcher's `match`
before the catch-all arm: the seven single-character tokens, the three string
openers, and the two end-of-statement characters. -/
def Lexer.isDispatchLiteral (c : Char) : Bool :=
  c == '=' || c == '+' || c == '-' || c == lcurly || c == rcurly ||
    c == '(' || c == ')' || c == dquote || c == squote || c == bquote ||
    c == '\n' || c == ';'

/-! ## Helper lemmas -/

theorem Pos.advance_ok (p : Pos) (b : Bool) :
    p.advance b = Except.ok (p.advanceUnwrap b) := by
  rcases p with ⟨f, li, co, ra⟩
  cases b <;> rcases ra with _ | r <;> rfl

/-- The successor function the raw offset follows on every `read_char` call:
an unset offset becomes 0, a set offset is incremented. -/
def rawSucc (o : Option Nat) : Nat :=
  match o with
  | none => 0
  | some r => r + 1

theorem Pos.advanceUnwrap_eq (p : Pos) (b : Bool) :
    p.advanceUnwrap b =
      ⟨p.file, p.line + (if b then 1 else 0), p.column + (if b then 0 else 1),
       some (rawSucc p.raw)⟩ := by
  rcases p with ⟨f, li, co, ra⟩
  cases b <;> rcases ra with _ | r <;>
    simp [Pos.advance, Pos.advanceUnwrap, okOr, rawSucc]

theorem Lexer.read_char_cons (l : Lexer) (c : Char) (rest : List Char)
    (h : l.input = c :: rest) :
    l.read_char =
      (⟨rest, l.position.advanceUnwrap (l.ch == some '\n'), some c⟩, some c) := by
  simp [Lexer.read_char, h]

theorem Lexer.read_char_nil (l : Lexer) (h : l.input = []) :
    l.read_char =
      (⟨[], l.position.advanceUnwrap (l.ch == some '\n'), none⟩, none) := by
  simp [Lexer.read_char, h]

theorem Lexer.read_char_input (l : Lexer) :
    (l.read_char).1.input = l.input.tail := by
  rcases h : l.input with _ | ⟨c, rest⟩ <;> simp [Lexer.read_char, h]

theorem Lexer.read_char_ch (l : Lexer) : (l.read_char).1.ch = l.input.head? := by
  rcases h : l.input with _ | ⟨c, rest⟩ <;> simp [Lexer.read_char, h]

theorem Lexer.read_char_snd (l : Lexer) : (l.read_char).2 = l.input.head? := by
  rcases h : l.input with _ | ⟨c, rest⟩ <;> simp [Lexer.read_char, h]

theorem Lexer.read_char_pos (l : Lexer) :
    (l.read_char).1.position = l.position.advanceUnwrap (l.ch == some '\n') := by
  rcases h : l.input with _ | ⟨c, rest⟩ <;> simp [Lexer.read_char, h]

theorem Lexer.scanWhile_acc (p : Char → Bool) :
    ∀ (inp : List Char) (pos : Pos) (ch : Option Char) (acc : List Char),
      (Lexer.scanWhile p inp pos ch acc).2 = acc ++ inp.takeWhile p := by
  intro inp
  induction inp with
  | nil => intro pos ch acc; simp [Lexer.scanWhile]
  | cons c rest ih =>
    intro pos ch acc
    by_cases h : p c <;>
      simp [Lexer.scanWhile, h, ih, List.takeWhile_cons]

theorem Lexer.scanWhile_input (p : Char → Bool) :
    ∀ (inp : List Char) (pos : Pos) (ch : Option Char) (acc : List Char),
      (Lexer.scanWhile p inp pos ch acc).1.input = inp.dropWhile p := by
  intro inp
  induction inp with
  | nil => intro pos ch acc; simp [Lexer.scanWhile]
  | cons c rest ih =>
    intro pos ch acc
    by_cases h : p c <;>
      simp [Lexer.scanWhile, h, ih, List.dropWhile_cons]

theorem Lexer.wsGo_not (inp : List Char) (pos : Pos) (ch : Option Char)
    (h : Lexer.is_whitespace ch = false) :
    Lexer.wsGo inp pos ch = ⟨inp, pos, ch⟩ := by
  cases inp <;> simp [Lexer.wsGo, h]

theorem Lexer.wsGo_skip :
    ∀ (ws : List Char) (c : Char) (rest : List Char) (pos : Pos) (ch : Option Char),
      (∀ w ∈ ws, Lexer.is_whitespace (some w) = true) →
      Lexer.is_whitespace ch = true →
      Lexer.is_whitespace (some c) = false →
      ∃ p', Lexer.wsGo (ws ++ c :: rest) pos ch = ⟨rest, p', some c⟩ := by
  intro ws
  induction ws with
  | nil =>
    intro c rest pos ch _ hch hc
    refine ⟨pos.advanceUnwrap (ch == some '\n'), ?_⟩
    simp [Lexer.wsGo, hch, Lexer.wsGo_not _ _ _ hc]
  | cons w ws ih =>
    intro c rest pos ch hws hch hc
    simp only [List.cons_append, Lexer.wsGo, hch, if_true]
    exact ih c rest _ (some w)
      (fun x hx => hws x (List.mem_cons_of_mem _ hx))
      (hws w (List.mem_cons_self _ _)) hc

theorem Lexer.skip_sig (l : Lexer) (ws : List Char) (c : Char) (rest : List Char)
    (hin : l.input = ws ++ c :: rest)
    (hws : ∀ w ∈ ws, Lexer.is_whitespace (some w) = true)
    (hc : Lexer.is_whitespace (some c) = false) :
    ∃ p', (l.read_char).1.take_whitespace = ⟨rest, p', some c⟩ := by
  cases ws with
  | nil =>
    simp only [List.nil_append] at hin
    refine ⟨l.position.advanceUnwrap (l.ch == some '\n'), ?_⟩
    rw [Lexer.read_char_cons l c rest hin]
    simp [Lexer.take_whitespace, Lexer.wsGo_not _ _ _ hc]
  | cons w ws' =>
    have hin' : l.input = w :: (ws' ++ c :: rest) := by simp [hin]
    rw [Lexer.read_char_cons l w _ hin']
    simp only [Lexer.take_whitespace]
    exact Lexer.wsGo_skip ws' c rest _ (some w)
      (fun x hx => hws x (by simp [hx]))
      (hws w (by simp)) hc

theorem Lexer.read_string_snd (l : Lexer) :
    (l.read_string).2 =
      Except.ok ((Lexer.scanWhile strContinue l.input l.position l.ch []).2) := by
  simp only [Lexer.read_string]
  split <;> rfl

theorem Lexer.read_string_eq (l : Lexer) :
    l.read_string = ((l.read_string).1,
      Except.ok ((Lexer.scanWhile strContinue l.input l.position l.ch []).2)) := by
  rw [← Lexer.read_string_snd l]

theorem Lexer.read_ident_eq (CC : CharClassifier) (l : Lexer) (c : Char)
    (h : l.ch = some c) :
    Lexer.read_ident CC l =
      ((Lexer.scanWhile (fun d => Lexer.is_alphanumeric CC (some d))
          l.input l.position l.ch [c]).1,
       Except.ok (c :: l.input.takeWhile
          (fun d => Lexer.is_alphanumeric CC (some d)))) := by
  simp only [Lexer.read_ident, h]
  rw [Lexer.scanWhile_acc]
  simp

/-- Evaluation of the dispatcher when the current significant character is
not matched by any literal arm: the catch-all arm's if-chain. -/
theorem Lexer.next_catchall (CC : CharClassifier) (l : Lexer) (rest : List Char)
    (p1 : Pos) (c : Char)
    (hlb : (l.read_char).1.take_whitespace = ⟨rest, p1, some c⟩)
    (hlit : Lexer.isDispatchLiteral c = false) :
    Lexer.next CC l =
      (if Lexer.is_alphabetic CC (some c) then
        match Lexer.read_ident CC ⟨rest, p1, some c⟩ with
        | (l3, Except.ok s) => (l3, some (Except.ok (Token.Ident s, p1)))
        | (l3, Except.error _) => (l3, none)
      else if c == '.' && Lexer.is_alphabetic CC rest.head? then
        (⟨rest, p1, some c⟩, some (Except.ok (Token.Dot, p1)))
      else if Lexer.is_num_char CC (some c) then
        match Lexer.read_num CC ⟨rest, p1, some c⟩ with
        | (l3, Except.ok s) => (l3, some (Except.ok (Token.Num s, p1)))
        | (l3, Except.error _) => (l3, none)
      else (⟨rest, p1, some c⟩, some (Except.ok (Token.Invalid c, p1)))) := by
  simp only [Lexer.isDispatchLiteral, Bool.or_eq_false_iff, and_assoc] at hlit
  obtain ⟨h1, h2, h3, h4, h5, h6, h7, h8, h9, h10, h11, h12⟩ := hlit
  simp only [Lexer.next, hlb]
  simp [h1, h2, h3, h4, h5, h6, h7, h8, h9, h10, h11, h12]

/-- The identifier path of the dispatcher, after optional whitespace. -/
theorem Lexer.next_ident_of (CC : CharClassifier) (ws : List Char) (c : Char)
    (rest : List Char)
    (hws : ∀ w ∈ ws, Lexer.is_whitespace (some w) = true)
    (hc : Lexer.is_whitespace (some c) = false)
    (hlit : Lexer.isDispatchLiteral c = false)
    (halpha : Lexer.is_alphabetic CC (some c) = true) :
    ∃ p' l', Lexer.next CC (Lexer.new (ws ++ c :: rest)) =
      (l', some (Except.ok (Token.Ident
        (c :: rest.takeWhile (fun d => Lexer.is_alphanumeric CC (some d))), p'))) ∧
      l'.input = rest.dropWhile (fun d => Lexer.is_alphanumeric CC (some d)) := by
  obtain ⟨p1, hlb⟩ :=
    Lexer.skip_sig (Lexer.new (ws ++ c :: rest)) ws c rest rfl hws hc
  have hnext : Lexer.next CC (Lexer.new (ws ++ c :: rest)) =
      ((Lexer.scanWhile (fun d => Lexer.is_alphanumeric CC (some d))
          rest p1 (some c) [c]).1,
       some (Except.ok (Token.Ident
        (c :: rest.takeWhile (fun d => Lexer.is_alphanumeric CC (some d))), p1))) := by
    rw [Lexer.next_catchall CC _ rest p1 c hlb hlit, if_pos halpha,
      Lexer.read_ident_eq CC _ c rfl]
  exact ⟨p1, _, hnext, Lexer.scanWhile_input _ rest p1 (some c) [c]⟩

/-- The numeric path of the dispatcher when the literal is well-formed. -/
theorem Lexer.next_num_of (CC : CharClassifier) (c : Char) (rest : List Char)
    (hc : Lexer.is_whitespace (some c) = false)
    (hlit : Lexer.isDispatchLiteral c = false)
    (halpha : Lexer.is_alphabetic CC (some c) = false)
    (hdot : (c == '.' && Lexer.is_alphabetic CC rest.head?) = false)
    (hnum : Lexer.is_num_char CC (some c) = true)
    (hcnt : (c :: rest.takeWhile (fun d => Lexer.is_num_char CC (some d))).count '.' ≤ 1) :
    ∃ p' l', Lexer.next CC (Lexer.new (c :: rest)) =
      (l', some (Except.ok (Token.Num
        (c :: rest.takeWhile (fun d => Lexer.is_num_char CC (some d))), p'))) ∧
      l'.input = rest.dropWhile (fun d => Lexer.is_num_char CC (some d)) := by
  obtain ⟨p1, hlb⟩ :=
    Lexer.skip_sig (Lexer.new (c :: rest)) [] c rest rfl (by simp) hc
  have hacc := Lexer.scanWhile_acc
    (fun d => Lexer.is_num_char CC (some d)) rest p1 (some c) [c]
  have hnum2 : Lexer.read_num CC ⟨rest, p1, some c⟩ =
      ((Lexer.scanWhile (fun d => Lexer.is_num_char CC (some d))
          rest p1 (some c) [c]).1,
       Except.ok (c :: rest.takeWhile (fun d => Lexer.is_num_char CC (some d)))) := by
    simp only [Lexer.read_num]
    rw [hacc]
    simp only [List.singleton_append]
    rw [if_neg (by omega)]
  have hnext : Lexer.next CC (Lexer.new (c :: rest)) =
      ((Lexer.scanWhile (fun d => Lexer.is_num_char CC (some d))
          rest p1 (some c) [c]).1,
       some (Except.ok (Token.Num
        (c :: rest.takeWhile (fun d => Lexer.is_num_char CC (some d))), p1))) := by
    rw [Lexer.next_catchall CC _ rest p1 c hlb hlit, if_neg (by simp [halpha]),
      if_neg (by simp [hdot]), if_pos hnum, hnum2]
  exact ⟨p1, _, hnext, Lexer.scanWhile_input _ rest p1 (some c) [c]⟩

/-- Evaluation of the dispatcher when the current significant character is a
string opener: the quote arm delegates to `read_string`. -/
theorem Lexer.next_string_eval (CC : CharClassifier) (l : Lexer)
    (rest : List Char) (p1 : Pos) (q : Char)
    (hlb : (l.read_char).1.take_whitespace = ⟨rest, p1, some q⟩)
    (h1 : (q == '=') = false) (h2 : (q == '+') = false) (h3 : (q == '-') = false)
    (h4 : (q == lcurly) = false) (h5 : (q == rcurly) = false)
    (h6 : (q == '(') = false) (h7 : (q == ')') = false)
    (h8 : (q == dquote || q == squote || q == bquote) = true) :
    Lexer.next CC l =
      (match Lexer.read_string ⟨rest, p1, some q⟩ with
       | (l3, Except.ok s) => (l3, some (Except.ok (Token.String s, p1)))
       | (l3, Except.error _) =>
         (l3, some (Except.error ⟨CompilationErrKind.InvalidString,
           invalidStringMsg l3.position⟩))) := by
  simp only [Lexer.next, hlb]
  simp [h1, h2, h3, h4, h5, h6, h7, h8]

/-- The string path of the dispatcher: the literal's contents are the maximal
prefix of the remaining input on which `strContinue` holds, and the
terminating character is consumed exactly when it is a double quote. -/
theorem Lexer.next_string_of (CC : CharClassifier) (q : Char) (rest : List Char)
    (hc : Lexer.is_whitespace (some q) = false)
    (h1 : (q == '=') = false) (h2 : (q == '+') = false) (h3 : (q == '-') = false)
    (h4 : (q == lcurly) = false) (h5 : (q == rcurly) = false)
    (h6 : (q == '(') = false) (h7 : (q == ')') = false)
    (h8 : (q == dquote || q == squote || q == bquote) = true) :
    ∃ p' l', Lexer.next CC (Lexer.new (q :: rest)) =
      (l', some (Except.ok (Token.String (rest.takeWhile strContinue), p'))) ∧
      l'.input = (if (rest.dropWhile strContinue).head? == some dquote
                  then (rest.dropWhile strContinue).tail
                  else rest.dropWhile strContinue) := by
  obtain ⟨p1, hlb⟩ :=
    Lexer.skip_sig (Lexer.new (q :: rest)) [] q rest rfl (by simp) hc
  have heval := Lexer.next_string_eval CC (Lexer.new (q :: rest)) rest p1 q hlb
    h1 h2 h3 h4 h5 h6 h7 h8
  have hacc := Lexer.scanWhile_acc strContinue rest p1 (some q) []
  have hinp := Lexer.scanWhile_input strContinue rest p1 (some q) []
  cases hdq : ((rest.dropWhile strContinue).head? == some dquote) with
  | true =>
    have hread : Lexer.read_string ⟨rest, p1, some q⟩ =
        (((Lexer.scanWhile strContinue rest p1 (some q) []).1.read_char).1,
         Except.ok (rest.takeWhile strContinue)) := by
      simp only [Lexer.read_string]
      rw [hinp, if_pos hdq, hacc]
      simp
    refine ⟨p1, ((Lexer.scanWhile strContinue rest p1 (some q) []).1.read_char).1,
      ?_, ?_⟩
    · rw [heval, hread]
    · rw [Lexer.read_char_input, hinp]; simp
  | false =>
    have hread : Lexer.read_string ⟨rest, p1, some q⟩ =
        ((Lexer.scanWhile strContinue rest p1 (some q) []).1,
         Except.ok (rest.takeWhile strContinue)) := by
      simp only [Lexer.read_string]
      rw [hinp, if_neg (by simp [hdq]), hacc]
      simp
    refine ⟨p1, (Lexer.scanWhile strContinue rest p1 (some q) []).1, ?_, ?_⟩
    · rw [heval, hread]
    · rw [hinp]; simp

/-- The dispatcher never yields an `error` item. -/
theorem Lexer.next_not_err (CC : CharClassifier) (l : Lexer) (e : CompilationErr) :
    (Lexer.next CC l).2 ≠ some (Except.error e) := by
  intro h
  simp only [Lexer.next] at h
  generalize hg : (l.read_char).1.take_whitespace = lb at h
  rcases hch : lb.ch with _ | ch
  · rw [hch] at h; simp at h
  · rw [hch] at h
    simp only at h
    by_cases b1 : (ch == '=') = true
    · rw [if_pos b1] at h; simp at h
    rw [if_neg b1] at h
    by_cases b2 : (ch == '+') = true
    · rw [if_pos b2] at h; simp at h
    rw [if_neg b2] at h
    by_cases b3 : (ch == '-') = true
    · rw [if_pos b3] at h; simp at h
    rw [if_neg b3] at h
    by_cases b4 : (ch == lcurly) = true
    · rw [if_pos b4] at h; simp at h
    rw [if_neg b4] at h
    by_cases b5 : (ch == rcurly) = true
    · rw [if_pos b5] at h; simp at h
    rw [if_neg b5] at h
    by_cases b6 : (ch == '(') = true
    · rw [if_pos b6] at h; simp at h
    rw [if_neg b6] at h
    by_cases b7 : (ch == ')') = true
    · rw [if_pos b7] at h; simp at h
    rw [if_neg b7] at h
    by_cases b8 : (ch == dquote || ch == squote || ch == bquote) = true
    · rw [if_pos b8] at h
      rcases hrs : lb.read_string with ⟨l3, r⟩
      rw [hrs] at h
      have hsnd := Lexer.read_string_snd lb
      rw [hrs] at hsnd
      rcases r with e2 | s
      · exact absurd hsnd (by simp)
      · simp at h
    rw [if_neg b8] at h
    by_cases b9 : (ch == '\n' || ch == ';') = true
    · rw [if_pos b9] at h; simp at h
    rw [if_neg b9] at h
    by_cases b10 : Lexer.is_alphabetic CC (some ch) = true
    · rw [if_pos b10] at h
      rcases hri : Lexer.read_ident CC lb with ⟨l3, r⟩
      rw [hri] at h
      rcases r with e2 | s <;> simp at h
    rw [if_neg b10] at h
    by_cases b11 : (ch == '.' && Lexer.is_alphabetic CC lb.input.head?) = true
    · rw [if_pos b11] at h; simp at h
    rw [if_neg b11] at h
    by_cases b12 : Lexer.is_num_char CC (some ch) = true
    · rw [if_pos b12] at h
      rcases hrn : Lexer.read_num CC lb with ⟨l3, r⟩
      rw [hrn] at h
      rcases r with e2 | s <;> simp at h
    rw [if_neg b12] at h
    simp at h

/-- Every pull is `none` or an `ok` token-position pair. -/
theorem Lexer.next_no_err (CC : CharClassifier) (l : Lexer) :
    (Lexer.next CC l).2 = none ∨
      ∃ t p, (Lexer.next CC l).2 = some (Except.ok (t, p)) := by
  rcases ho : (Lexer.next CC l).2 with _ | r
  · exact Or.inl rfl
  · rcases r with e | ⟨t, p⟩
    · exact absurd ho (Lexer.next_not_err CC l e)
    · exact Or.inr ⟨t, p, rfl⟩

/-- A pull on an exhausted lexer yields the end signal and keeps the input
exhausted. -/
theorem Lexer.next_nil (CC : CharClassifier) (l : Lexer) (h : l.input = []) :
    (Lexer.next CC l).2 = none ∧ (Lexer.next CC l).1.input = [] := by
  simp only [Lexer.next]
  rw [Lexer.read_char_nil l h]
  simp [Lexer.take_whitespace, Lexer.wsGo, Lexer.is_whitespace]

theorem Lexer.iterate_nil (CC : CharClassifier) (l : Lexer) (h : l.input = []) :
    ∀ n, (Lexer.iterate CC l n).input = []
  | 0 => h
  | n + 1 => (Lexer.next_nil CC _ (Lexer.iterate_nil CC l h n)).2

theorem Lexer.pull_nil (CC : CharClassifier) (l : Lexer) (h : l.input = [])
    (n : Nat) : Lexer.pull CC l n = none :=
  (Lexer.next_nil CC _ (Lexer.iterate_nil CC l h n)).1

theorem Lexer.iterate_add (CC : CharClassifier) (l : Lexer) (m : Nat) :
    ∀ n, Lexer.iterate CC l (m + n) = Lexer.iterate CC (Lexer.iterate CC l m) n
  | 0 => rfl
  | n + 1 => by
    rw [show m + (n + 1) = (m + n) + 1 from rfl]
    simp only [Lexer.iterate, Lexer.iterate_add CC l m n]

theorem Lexer.pull_add (CC : CharClassifier) (l : Lexer) (m n : Nat) :
    Lexer.pull CC l (m + n) = Lexer.pull CC (Lexer.iterate CC l m) n := by
  simp only [Lexer.pull, Lexer.iterate_add]

/-! ## Claims -/

/-- Claim C1, counterexample: on the input "0000.10.0" the pull that scans
the malformed literal does not yield a LexError of kind InvalidNumber — the
dispatcher's `.ok()?` discards the sub-scanner's error and the pull yields
the end-of-sequence signal (`none`) instead. -/
theorem c1_counterexample :
    Lexer.pull asciiCC
      (Lexer.new ['0', '0', '0', '0', '.', '1', '0', '.', '0']) 0 = none := by
  decide

/-- Claim C1 (amended): whenever the scanned numeric literal contains more
than one decimal point, the number sub-scanner `read_num` returns a LexError
of kind InvalidNumber whose message reports the source position (the line
and column reached after the literal), but the dispatcher discards that
error and the pull yields the end-of-sequence signal; on "0000.10.0" the
sub-scanner's message is "Invalid number at: :0:10" while the pull yields
`none`. -/
theorem c1_invalid_number_reported_then_discarded :
    (∀ (CC : CharClassifier) (l : Lexer) (c : Char), l.ch = some c →
      (c :: l.input.takeWhile (fun d => Lexer.is_num_char CC (some d))).count '.' > 1 →
      Lexer.read_num CC l =
        ((Lexer.scanWhile (fun d => Lexer.is_num_char CC (some d))
            l.input l.position l.ch [c]).1,
         Except.error ⟨CompilationErrKind.InvalidNumber,
           invalidNumberMsg (Lexer.scanWhile (fun d => Lexer.is_num_char CC (some d))
             l.input l.position l.ch [c]).1.position⟩)) ∧
    Lexer.pull asciiCC
      (Lexer.new ['0', '0', '0', '0', '.', '1', '0', '.', '0']) 0 = none ∧
    (Lexer.read_num asciiCC
      ((Lexer.new ['0', '0', '0', '0', '.', '1', '0', '.', '0']).read_char).1.take_whitespace).2 =
      Except.error ⟨CompilationErrKind.InvalidNumber, "Invalid number at: :0:10"⟩ := by
  refine ⟨?_, by decide, by decide⟩
  intro CC l c hch hcnt
  simp only [Lexer.read_num, hch]
  have hcnt' : ((Lexer.scanWhile (fun d => Lexer.is_num_char CC (some d))
      l.input l.position (some c) [c]).2.count '.') > 1 := by
    rw [Lexer.scanWhile_acc]; simpa using hcnt
  rw [if_pos hcnt']

/-- Claim C1, witness: the amended theorem applied to a concrete lexer state
scanning "..." (three dots). -/
theorem c1_witness :
    Lexer.read_num asciiCC ⟨['.', '.'], ⟨none, 0, 1, none⟩, some '.'⟩ =
      ((Lexer.scanWhile (fun d => Lexer.is_num_char asciiCC (some d))
          ['.', '.'] ⟨none, 0, 1, none⟩ (some '.') ['.']).1,
       Except.error ⟨CompilationErrKind.InvalidNumber,
         invalidNumberMsg (Lexer.scanWhile (fun d => Lexer.is_num_char asciiCC (some d))
           ['.', '.'] ⟨none, 0, 1, none⟩ (some '.') ['.']).1.position⟩) :=
  c1_invalid_number_reported_then_discarded.1 asciiCC
    ⟨['.', '.'], ⟨none, 0, 1, none⟩, some '.'⟩ '.' rfl (by decide)

/-- Claim C2, counterexample: positions are not 1-based and line is not
incremented on the newline's own consumption. On the input "\n", consuming
the newline leaves line at 0 and bumps column from 1 to 2 (the EndOfLine
token is reported at line 0, column 2); moreover the second pull consumes no
character at all, yet it bumps line to 1 (the delayed newline effect) and
raw from 0 to 1. -/
theorem c2_counterexample :
    Lexer.pull asciiCC (Lexer.new ['\n']) 0 =
      some (Except.ok (Token.EndOfLine, ⟨none, 0, 2, some 0⟩)) ∧
    (Lexer.iterate asciiCC (Lexer.new ['\n']) 1).position = ⟨none, 0, 2, some 0⟩ ∧
    Lexer.pull asciiCC (Lexer.new ['\n']) 1 = none ∧
    (Lexer.iterate asciiCC (Lexer.new ['\n']) 2).position = ⟨none, 1, 2, some 1⟩ := by
  decide

/-- Claim C2 (amended): a new lexer starts at line 0 and column 1 with the
raw offset unset; every `read_char` call (including at end of input, where
no character is consumed) advances the position exactly once — line
increases by one exactly when the previously read character was a newline,
column increases by one otherwise, and the raw offset is set to 0 on the
first call and incremented by one on every later call. -/
theorem c2_position_advance_semantics :
    (∀ s : List Char, (Lexer.new s).position = ⟨none, 0, 1, none⟩) ∧
    (∀ l : Lexer,
      (l.read_char).1.position =
        ⟨l.position.file,
         l.position.line + (if l.ch == some '\n' then 1 else 0),
         l.position.column + (if l.ch == some '\n' then 0 else 1),
         some (rawSucc l.position.raw)⟩ ∧
      (l.read_char).1.input = l.input.tail ∧
      (l.read_char).1.ch = l.input.head?) :=
  ⟨fun _ => rfl,
   fun l => ⟨by rw [Lexer.read_char_pos, Pos.advanceUnwrap_eq],
     Lexer.read_char_input l, Lexer.read_char_ch l⟩⟩

/-- Claim C3, counterexample: the backtick is not a terminator of the string
sub-scanner's loop. Scanning "`a`" consumes the second backtick into the
literal's contents, yielding StringLiteral of ['a', '`'] rather than
stopping before it. -/
theorem c3_counterexample :
    Lexer.pull asciiCC (Lexer.new [bquote, 'a', bquote]) 0 =
      some (Except.ok (Token.String ['a', bquote], ⟨none, 0, 2, some 0⟩)) := by
  decide

/-- Claim C3 (amended): for a string-literal scan opened by a double quote,
single quote, or backtick, characters are consumed exactly until the next
character would be a double quote, single quote, newline, or ';' (the
backtick is not a terminator), or input is exhausted; the terminator is
never included in the contents; and the terminator is consumed exactly when
it is a double quote. -/
theorem c3_string_termination :
    ∀ (CC : CharClassifier) (q : Char) (rest : List Char),
      (q == dquote || q == squote || q == bquote) = true →
      ∃ p' l', Lexer.next CC (Lexer.new (q :: rest)) =
        (l', some (Except.ok (Token.String (rest.takeWhile strContinue), p'))) ∧
        l'.input = (if (rest.dropWhile strContinue).head? == some dquote
                    then (rest.dropWhile strContinue).tail
                    else rest.dropWhile strContinue) := by
  intro CC q rest hq
  have hq3 : q = dquote ∨ q = squote ∨ q = bquote := by
    simpa [or_assoc] using hq
  rcases hq3 with rfl | rfl | rfl <;>
    exact Lexer.next_string_of CC _ rest (by decide) (by decide) (by decide)
      (by decide) (by decide) (by decide) (by decide) (by decide) (by decide)

/-- Claim C3, witness: the amended theorem at the input "\"ab\"c": the
literal's contents are ['a','b'], the closing double quote is consumed, and
'c' remains unconsumed. -/
theorem c3_witness :
    ∃ p' l', Lexer.next asciiCC (Lexer.new [dquote, 'a', 'b', dquote, 'c']) =
      (l', some (Except.ok (Token.String ['a', 'b'], p'))) ∧
      l'.input = ['c'] :=
  c3_string_termination asciiCC dquote ['a', 'b', dquote, 'c'] (by decide)

/-- Claim C4 (confirmed): the string sub-scanner always succeeds (it returns
`ok` on every lexer state), so the InvalidString error branch of the
dispatcher is unreachable; in fact every pull is either the end signal or a
successful token, never an error item of any kind. -/
theorem c4_invalid_string_unreachable :
    (∀ l : Lexer, ∃ l1 s, l.read_string = (l1, Except.ok s)) ∧
    (∀ (CC : CharClassifier) (l : Lexer),
      (Lexer.next CC l).2 = none ∨
        ∃ t p, (Lexer.next CC l).2 = some (Except.ok (t, p))) :=
  ⟨fun l => ⟨(l.read_string).1,
     (Lexer.scanWhile strContinue l.input l.position l.ch []).2,
     Lexer.read_string_eq l⟩,
   Lexer.next_no_err⟩

/-- Claim C5, counterexample: an underscore is not an alphabetic character
(in Rust's classification, mirrored by `asciiCC` on ASCII), yet "._" lexes
as a Dot token — the dispatcher's lookahead test accepts alphabetic
characters or underscore, so a '.' followed by a non-alphabetic character
does not always fall through to the numeric scan (which would have produced
Number ['.']). -/
theorem c5_counterexample :
    asciiCC.isAlphabetic '_' = false ∧
    Lexer.pull asciiCC (Lexer.new ['.', '_']) 0 =
      some (Except.ok (Token.Dot, ⟨none, 0, 2, some 0⟩)) := by
  decide

/-- Claim C5 (amended): a '.' whose one-character lookahead is alphabetic or
an underscore yields a standalone Dot token without consuming the following
identifier, while a '.' whose lookahead is neither alphabetic nor an
underscore falls through to the numeric scan; in particular ".5" lexes as a
Number and "a.z" yields Identifier "a", then Dot, then Identifier "z" on
successive pulls. (Both general clauses assume the classifier does not call
'.' itself alphabetic, as Rust's does not.) -/
theorem c5_dot_member_access :
    (∀ (CC : CharClassifier) (c : Char) (rest : List Char),
      CC.isAlphabetic '.' = false →
      Lexer.is_alphabetic CC (some c) = true →
      ∃ p', Lexer.next CC (Lexer.new ('.' :: c :: rest)) =
        (⟨c :: rest, p', some '.'⟩, some (Except.ok (Token.Dot, p')))) ∧
    (∀ (CC : CharClassifier) (c : Char) (rest : List Char),
      CC.isAlphabetic '.' = false →
      Lexer.is_alphabetic CC (some c) = false →
      ('.' :: (c :: rest).takeWhile (fun d => Lexer.is_num_char CC (some d))).count '.' ≤ 1 →
      ∃ p' l', Lexer.next CC (Lexer.new ('.' :: c :: rest)) =
        (l', some (Except.ok (Token.Num
          ('.' :: (c :: rest).takeWhile (fun d => Lexer.is_num_char CC (some d))), p')))) ∧
    Lexer.pull asciiCC (Lexer.new ['.', '5']) 0 =
      some (Except.ok (Token.Num ['.', '5'], ⟨none, 0, 2, some 0⟩)) ∧
    Lexer.pull asciiCC (Lexer.new ['a', '.', 'z']) 0 =
      some (Except.ok (Token.Ident ['a'], ⟨none, 0, 2, some 0⟩)) ∧
    Lexer.pull asciiCC (Lexer.new ['a', '.', 'z']) 1 =
      some (Except.ok (Token.Dot, ⟨none, 0, 3, some 1⟩)) ∧
    Lexer.pull asciiCC (Lexer.new ['a', '.', 'z']) 2 =
      some (Except.ok (Token.Ident ['z'], ⟨none, 0, 4, some 2⟩)) := by
  refine ⟨?_, ?_, by decide, by decide, by decide, by decide⟩
  · intro CC c rest hdotal halpha
    obtain ⟨p1, hlb⟩ := Lexer.skip_sig (Lexer.new ('.' :: c :: rest)) []
      '.' (c :: rest) rfl (by simp) (by decide)
    refine ⟨p1, ?_⟩
    rw [Lexer.next_catchall CC _ (c :: rest) p1 '.' hlb (by decide),
      if_neg (show ¬(Lexer.is_alphabetic CC (some '.') = true) by
        simp [Lexer.is_alphabetic, hdotal]),
      if_pos (show ('.' == '.' && Lexer.is_alphabetic CC (c :: rest).head?) = true by
        simp [halpha])]
  · intro CC c rest hdotal halpha hcnt
    obtain ⟨p', l', hnext, _⟩ := Lexer.next_num_of CC '.' (c :: rest)
      (by decide) (by decide)
      (by simp [Lexer.is_alphabetic, hdotal])
      (by simp [halpha])
      (by simp [Lexer.is_num_char])
      hcnt
    exact ⟨p', l', hnext⟩

/-- Claim C5, witness: the Dot clause at ".f" and the numeric clause at
".5x". -/
theorem c5_witness :
    (∃ p', Lexer.next asciiCC (Lexer.new ['.', 'f']) =
      (⟨['f'], p', some '.'⟩, some (Except.ok (Token.Dot, p')))) ∧
    (∃ p' l', Lexer.next asciiCC (Lexer.new ['.', '5', 'x']) =
      (l', some (Except.ok (Token.Num ['.', '5'], p')))) :=
  ⟨c5_dot_member_access.1 asciiCC 'f' [] (by decide) (by decide),
   c5_dot_member_access.2.1 asciiCC '5' ['x'] (by decide) (by decide) (by decide)⟩

/-- Claim C6, counterexample: end-of-sequence is not absorbing. On the input
".. a" the first pull yields the end signal (the number sub-scanner's error
is discarded as `none`), yet the second pull yields Identifier "a". -/
theorem c6_counterexample :
    Lexer.pull asciiCC (Lexer.new ['.', '.', ' ', 'a']) 0 = none ∧
    Lexer.pull asciiCC (Lexer.new ['.', '.', ' ', 'a']) 1 =
      some (Except.ok (Token.Ident ['a'], ⟨none, 0, 5, some 3⟩)) := by
  decide

/-- Claim C6 (amended): once the lexer's input is exhausted every pull
yields the end-of-sequence signal and the input stays exhausted; in
particular empty input yields end-of-sequence on the first and every later
pull, and "a b c d" yields exactly 4 Identifier tokens after which every
further pull yields end-of-sequence. (The end signal itself is not
absorbing: a pull can also yield it when a number-scan error is discarded
with input remaining, after which a later pull may yield a token again.) -/
theorem c6_end_of_sequence_after_exhaustion :
    (∀ (CC : CharClassifier) (l : Lexer), l.input = [] →
      (Lexer.next CC l).2 = none ∧ (Lexer.next CC l).1.input = []) ∧
    (∀ n, Lexer.pull asciiCC (Lexer.new []) n = none) ∧
    Lexer.pull asciiCC (Lexer.new ['a', ' ', 'b', ' ', 'c', ' ', 'd']) 0 =
      some (Except.ok (Token.Ident ['a'], ⟨none, 0, 2, some 0⟩)) ∧
    Lexer.pull asciiCC (Lexer.new ['a', ' ', 'b', ' ', 'c', ' ', 'd']) 1 =
      some (Except.ok (Token.Ident ['b'], ⟨none, 0, 4, some 2⟩)) ∧
    Lexer.pull asciiCC (Lexer.new ['a', ' ', 'b', ' ', 'c', ' ', 'd']) 2 =
      some (Except.ok (Token.Ident ['c'], ⟨none, 0, 6, some 4⟩)) ∧
    Lexer.pull asciiCC (Lexer.new ['a', ' ', 'b', ' ', 'c', ' ', 'd']) 3 =
      some (Except.ok (Token.Ident ['d'], ⟨none, 0, 8, some 6⟩)) ∧
    (∀ n, Lexer.pull asciiCC
      (Lexer.new ['a', ' ', 'b', ' ', 'c', ' ', 'd']) (4 + n) = none) := by
  refine ⟨fun CC l h => Lexer.next_nil CC l h,
    fun n => Lexer.pull_nil asciiCC _ rfl n,
    by decide, by decide, by decide, by decide, ?_⟩
  intro n
  rw [Lexer.pull_add]
  exact Lexer.pull_nil asciiCC _ (by decide) n

/-- Claim C6, witness: the exhaustion clause applied to the empty lexer. -/
theorem c6_witness :
    (Lexer.next asciiCC (Lexer.new [])).2 = none ∧
    (Lexer.next asciiCC (Lexer.new [])).1.input = [] :=
  c6_end_of_sequence_after_exhaustion.1 asciiCC (Lexer.new []) rfl

/-- Claim C7 (confirmed): for every input whose first significant character
(after a run of spaces and tabs) passes the dispatcher's alphabetic test,
the pull yields an Identifier whose lexeme is that character followed by the
maximal prefix of alphanumeric-or-underscore characters; the first character
outside that class is left unconsumed; and the identifier sub-scanner cannot
fail when the current character exists — it returns `ok` with exactly that
maximal lexeme. -/
theorem c7_identifier_maximal_munch :
    (∀ (CC : CharClassifier) (ws : List Char) (c : Char) (rest : List Char),
      (∀ w ∈ ws, Lexer.is_whitespace (some w) = true) →
      Lexer.is_whitespace (some c) = false →
      Lexer.isDispatchLiteral c = false →
      Lexer.is_alphabetic CC (some c) = true →
      ∃ p' l', Lexer.next CC (Lexer.new (ws ++ c :: rest)) =
        (l', some (Except.ok (Token.Ident
          (c :: rest.takeWhile (fun d => Lexer.is_alphanumeric CC (some d))), p'))) ∧
        l'.input = rest.dropWhile (fun d => Lexer.is_alphanumeric CC (some d))) ∧
    (∀ (CC : CharClassifier) (l : Lexer) (c : Char), l.ch = some c →
      Lexer.read_ident CC l =
        ((Lexer.scanWhile (fun d => Lexer.is_alphanumeric CC (some d))
            l.input l.position l.ch [c]).1,
         Except.ok (c :: l.input.takeWhile
            (fun d => Lexer.is_alphanumeric CC (some d))))) :=
  ⟨Lexer.next_ident_of, Lexer.read_ident_eq⟩

/-- Claim C7, witness: the identifier clause at " hi1+x" (one leading space)
and the sub-scanner clause at a concrete state. -/
theorem c7_witness :
    (∃ p' l', Lexer.next asciiCC
        (Lexer.new ([' '] ++ 'h' :: ['i', '1', '+', 'x'])) =
      (l', some (Except.ok (Token.Ident ['h', 'i', '1'], p'))) ∧
      l'.input = ['+', 'x']) ∧
    Lexer.read_ident asciiCC ⟨['i', '1', '+'], ⟨none, 0, 1, none⟩, some 'h'⟩ =
      (⟨['+'], ⟨none, 0, 3, some 1⟩, some '1'⟩, Except.ok ['h', 'i', '1']) :=
  ⟨c7_identifier_maximal_munch.1 asciiCC [' '] 'h' ['i', '1', '+', 'x']
      (by decide) (by decide) (by decide) (by decide),
   c7_identifier_maximal_munch.2 asciiCC _ 'h' rfl⟩

/-- Claim C8 (confirmed): the input consisting of exactly one '.' yields a
valid Number token with lexeme ['.'] on the first pull, not an error. -/
theorem c8_single_dot_number :
    Lexer.pull asciiCC (Lexer.new ['.']) 0 =
      some (Except.ok (Token.Num ['.'], ⟨none, 0, 2, some 0⟩)) := by
  decide

/-- Claim C9 (confirmed): no Unreachable (internal-invariant) error is ever
produced: `Pos::advance` always returns `ok` (its error branch, and hence
the `unwrap` in `read_char`, is unreachable); `read_char` on nonempty input
always yields the peeked character (so `read_string`'s unwrap is
unreachable); the identifier sub-scanner returns `ok` whenever a current
character exists; the number sub-scanner with a current character fails only
with kind InvalidNumber; the string sub-scanner always returns `ok`; and the
dispatcher never yields an error item at all. -/
theorem c9_no_internal_error :
    (∀ (p : Pos) (b : Bool), ∃ q, Pos.advance p b = Except.ok q) ∧
    (∀ (l : Lexer) (c : Char) (r : List Char), l.input = c :: r →
      (l.read_char).2 = some c) ∧
    (∀ (CC : CharClassifier) (l : Lexer) (c : Char), l.ch = some c →
      ∃ l1 s, Lexer.read_ident CC l = (l1, Except.ok s)) ∧
    (∀ (CC : CharClassifier) (l : Lexer) (c : Char), l.ch = some c →
      (∃ l1 s, Lexer.read_num CC l = (l1, Except.ok s)) ∨
      (∃ l1 m, Lexer.read_num CC l =
        (l1, Except.error ⟨CompilationErrKind.InvalidNumber, m⟩))) ∧
    (∀ l : Lexer, ∃ l1 s, l.read_string = (l1, Except.ok s)) ∧
    (∀ (CC : CharClassifier) (l : Lexer) (e : CompilationErr),
      (Lexer.next CC l).2 ≠ some (Except.error e)) := by
  refine ⟨fun p b => ⟨p.advanceUnwrap b, Pos.advance_ok p b⟩,
    fun l c r h => by rw [Lexer.read_char_cons l c r h],
    fun CC l c h => ⟨_, _, Lexer.read_ident_eq CC l c h⟩,
    ?_,
    fun l => ⟨(l.read_string).1,
      (Lexer.scanWhile strContinue l.input l.position l.ch []).2,
      Lexer.read_string_eq l⟩,
    Lexer.next_not_err⟩
  intro CC l c h
  simp only [Lexer.read_num, h]
  by_cases hc : ((Lexer.scanWhile (fun d => Lexer.is_num_char CC (some d))
      l.input l.position (some c) [c]).2.count '.') > 1
  · rw [if_pos hc]; exact Or.inr ⟨_, _, rfl⟩
  · rw [if_neg hc]; exact Or.inl ⟨_, _, rfl⟩

/-- Claim C9, witness: the six clauses applied at concrete positions, lexer
states and inputs. -/
theorem c9_witness :
    (∃ q, Pos.advance ⟨none, 4, 7, some 3⟩ true = Except.ok q) ∧
    (Lexer.read_char ⟨['x', 'y'], ⟨none, 0, 1, none⟩, none⟩).2 = some 'x' ∧
    (∃ l1 s, Lexer.read_ident asciiCC
      ⟨['b', '+'], ⟨none, 0, 1, none⟩, some 'a'⟩ = (l1, Except.ok s)) ∧
    ((∃ l1 s, Lexer.read_num asciiCC
        ⟨['2'], ⟨none, 0, 1, none⟩, some '1'⟩ = (l1, Except.ok s)) ∨
     (∃ l1 m, Lexer.read_num asciiCC
        ⟨['2'], ⟨none, 0, 1, none⟩, some '1'⟩ =
        (l1, Except.error ⟨CompilationErrKind.InvalidNumber, m⟩))) ∧
    (∃ l1 s, Lexer.read_string
      ⟨['a'], ⟨none, 0, 1, none⟩, some squote⟩ = (l1, Except.ok s)) ∧
    (Lexer.next asciiCC (Lexer.new ['?'])).2 ≠
      some (Except.error ⟨CompilationErrKind.Unreachable, INTERNAL_ERR_MSG⟩) :=
  ⟨c9_no_internal_error.1 ⟨none, 4, 7, some 3⟩ true,
   c9_no_internal_error.2.1 _ 'x' ['y'] rfl,
   c9_no_internal_error.2.2.1 asciiCC _ 'a' rfl,
   c9_no_internal_error.2.2.2.1 asciiCC _ '1' rfl,
   c9_no_internal_error.2.2.2.2.1 _,
   c9_no_internal_error.2.2.2.2.2 asciiCC _ _⟩

/-- Claim C10 (confirmed): the lexer defers entirely to the codepoint
classifier (Rust's Unicode `char::is_alphabetic` / `is_alphanumeric` /
`is_numeric`), with no ASCII restriction of its own: for every classifier,
every character it deems alphabetic starts an Identifier whose continuation
accepts every alphanumeric-or-underscore character, and every character it
deems numeric is accepted by the number scan; instantiated at the sampled
Unicode classifier, "αb٣+" lexes as Identifier ['α','b','٣'] and "٣2.5"
lexes as Number ['٣','2','.','5']. -/
theorem c10_unicode_classification :
    (∀ (CC : CharClassifier) (c : Char) (rest : List Char),
      Lexer.isDispatchLiteral c = false →
      Lexer.is_whitespace (some c) = false →
      CC.isAlphabetic c = true →
      ∃ p' l', Lexer.next CC (Lexer.new (c :: rest)) =
        (l', some (Except.ok (Token.Ident
          (c :: rest.takeWhile (fun d => Lexer.is_alphanumeric CC (some d))), p')))) ∧
    (∀ (CC : CharClassifier) (c : Char) (rest : List Char),
      Lexer.isDispatchLiteral c = false →
      Lexer.is_whitespace (some c) = false →
      CC.isAlphabetic c = false → (c == '_') = false → (c == '.') = false →
      CC.isNumeric c = true →
      (c :: rest.takeWhile (fun d => Lexer.is_num_char CC (some d))).count '.' ≤ 1 →
      ∃ p' l', Lexer.next CC (Lexer.new (c :: rest)) =
        (l', some (Except.ok (Token.Num
          (c :: rest.takeWhile (fun d => Lexer.is_num_char CC (some d))), p')))) ∧
    Lexer.pull uniCC (Lexer.new ['α', 'b', '٣', '+']) 0 =
      some (Except.ok (Token.Ident ['α', 'b', '٣'], ⟨none, 0, 2, some 0⟩)) ∧
    Lexer.pull uniCC (Lexer.new ['٣', '2', '.', '5']) 0 =
      some (Except.ok (Token.Num ['٣', '2', '.', '5'], ⟨none, 0, 2, some 0⟩)) := by
  refine ⟨?_, ?_, by decide, by decide⟩
  · intro CC c rest hlit hwsc halpha
    obtain ⟨p', l', h1, _⟩ := Lexer.next_ident_of CC [] c rest
      (by simp) hwsc hlit (by simp [Lexer.is_alphabetic, halpha])
    exact ⟨p', l', h1⟩
  · intro CC c rest hlit hwsc halpha hund hdot hnum hcnt
    obtain ⟨p', l', h1, _⟩ := Lexer.next_num_of CC c rest hwsc hlit
      (by simp [Lexer.is_alphabetic, halpha, hund])
      (by simp [hdot])
      (by simp [Lexer.is_num_char, hnum])
      hcnt
    exact ⟨p', l', h1⟩

/-- Claim C10, witness: the identifier clause at the non-ASCII letter 'é'
and the numeric clause at the non-ASCII digit '٣'. -/
theorem c10_witness :
    (∃ p' l', Lexer.next uniCC (Lexer.new ['é']) =
      (l', some (Except.ok (Token.Ident ['é'], p')))) ∧
    (∃ p' l', Lexer.next uniCC (Lexer.new ['٣', '٣']) =
      (l', some (Except.ok (Token.Num ['٣', '٣'], p')))) :=
  ⟨c10_unicode_classification.1 uniCC 'é' [] (by decide) (by decide) (by decide),
   c10_unicode_classification.2.1 uniCC '٣' ['٣'] (by decide) (by decide)
     (by decide) (by decide) (by decide) (by decide) (by decide)⟩

end RenrsLang
